import Mathlib

/-!
Shallow embedding of the music_xml crate: the score decoder of src/score.rs
(generic typed-value extraction plus per-record from_node mappers) and the
manifest resolution of src/mxl.rs (parse_music_xml_path), together with
theorems settling the behavioural claims about them.

XML documents are modelled as element trees: a node has a tag name, an
ordered attribute list, optional text content (roxmltree's node.text()) and
an ordered list of element children.  Machine integers (u8, u16) are
modelled as Nat with explicit range checks in the string parsers; Rust's
Result is Except Error.
-/

namespace MusicXml

/-- An XML element node as exposed by roxmltree: tag name, attributes in
document order, optional text content, and element children in document
order. -/
inductive XmlNode : Type where
  | mk (tag : String) (attrs : List (String × String)) (text : Option String)
      (children : List XmlNode) : XmlNode

def XmlNode.tag : XmlNode → String
  | .mk t _ _ _ => t

def XmlNode.attrs : XmlNode → List (String × String)
  | .mk _ a _ _ => a

def XmlNode.text : XmlNode → Option String
  | .mk _ _ t _ => t

def XmlNode.children : XmlNode → List XmlNode
  | .mk _ _ _ c => c

/-- roxmltree Node::attribute: value of the attribute with the given name. -/
def XmlNode.attribute (n : XmlNode) (a : String) : Option String :=
  (n.attrs.find? (fun p => p.1 == a)).map (fun p => p.2)

/-- The error taxonomy of src/error.rs (the variants produced by the decoder
itself; errors merely passed through from external crates are out of the
modelled scope). -/
inductive Error : Type where
  | NodeNotFound (tag : String) (parent_tag : String)
  | DuplicatedNodesFound (tag : String) (parent_tag : String)
  | ExclusiveNodeGroupNotFound (tags : List String) (parent_tag : String)
  | ExclusiveNodeFound (tags : List String) (parent_tag : String)
  | AttrNotFound (attr : String) (tag : String)
  | NodeTextParseFailed (tag : String) (text : String) (ty : String)
  | AttrValueParseFailed (attr : String) (tag : String) (v : String) (ty : String)
  | NodeTextEmpty (tag : String)
  deriving DecidableEq, Repr

abbrev Result (T : Type) := Except Error T

/-- Numeric value of a list of ASCII digit characters (most significant
first), as accumulated by Rust's integer FromStr. -/
def digitsToNat (l : List Char) : Nat :=
  l.foldl (fun a c => a * 10 + (c.toNat - 48)) 0

/-- Digit-run parsing shared by the unsigned FromStr model: nonempty,
all ASCII digits. -/
def parseDigits (ds : List Char) : Option Nat :=
  if ds ≠ [] ∧ ds.all Char.isDigit then some (digitsToNat ds) else none

/-- Rust unsigned integer FromStr (before the width check): an optional
leading plus sign followed by one or more ASCII digits; anything else
(empty string, minus sign, stray characters) fails. -/
def parseUnsigned (s : String) : Option Nat :=
  match s.data with
  | [] => none
  | c :: cs => if c = '+' then parseDigits cs else parseDigits (c :: cs)

/-- u8::from_str: parseUnsigned plus the 0..=255 range check. -/
def parseU8 (s : String) : Option Nat :=
  (parseUnsigned s).bind (fun v => if v ≤ 255 then some v else none)

/-- u16::from_str: parseUnsigned plus the 0..=65535 range check. -/
def parseU16 (s : String) : Option Nat :=
  (parseUnsigned s).bind (fun v => if v ≤ 65535 then some v else none)

/-- char::from_str: succeeds exactly on single-character strings. -/
def parseChar (s : String) : Option Char :=
  match s.data with
  | [c] => some c
  | _ => none

/-- String::from_str: infallible. -/
def parseString (s : String) : Option String :=
  some s

/-- The direct children of a node carrying the given tag, in document
order (node.children().filter(|c| c.tag_name().name() == tag)). -/
def childrenWithTag (node : XmlNode) (name : String) : List XmlNode :=
  node.children.filter (fun c => c.tag == name)

/-- parse_optional_attr (src/score.rs:31): absent attribute is None;
a present value is parsed, parse failure is AttrValueParseFailed carrying
the attribute name, the element tag, the raw value and the type name. -/
def parse_optional_attr (p : String → Option T) (ty : String)
    (node : XmlNode) (attr : String) : Result (Option T) :=
  match node.attribute attr with
  | some v =>
    match p v with
    | some t => .ok (some t)
    | none => .error (.AttrValueParseFailed attr node.tag v ty)
  | none => .ok none

/-- parse_attr (src/score.rs:46): delegates to parse_optional_attr and turns
absence into AttrNotFound. -/
def parse_attr (p : String → Option T) (ty : String)
    (node : XmlNode) (attr : String) : Result T :=
  match parse_optional_attr p ty node attr with
  | .ok (some t) => .ok t
  | .ok none => .error (.AttrNotFound attr node.tag)
  | .error e => .error e

/-- parse_optional_chd_text (src/score.rs:55): counts the direct children
with the given tag; 0 gives None, two or more give DuplicatedNodesFound,
exactly one extracts its text (absent text is NodeTextEmpty) and parses it
(failure is NodeTextParseFailed with tag, raw text, type name). -/
def parse_optional_chd_text (p : String → Option T) (ty : String)
    (node : XmlNode) (name : String) : Result (Option T) :=
  match childrenWithTag node name with
  | [] => .ok none
  | [c] =>
    match c.text with
    | none => .error (.NodeTextEmpty name)
    | some text =>
      match p text with
      | some t => .ok (some t)
      | none => .error (.NodeTextParseFailed name text ty)
  | _ => .error (.DuplicatedNodesFound name node.tag)

/-- parse_chd_text (src/score.rs:87): delegates to parse_optional_chd_text
and turns the absent case into NodeNotFound (child tag, parent tag). -/
def parse_chd_text (p : String → Option T) (ty : String)
    (node : XmlNode) (name : String) : Result T :=
  match parse_optional_chd_text p ty node name with
  | .ok (some t) => .ok t
  | .ok none => .error (.NodeNotFound name node.tag)
  | .error e => .error e

/-- Short-circuiting Result collection, as Rust's
collect::<Result<Vec<T>>>: the first child error aborts the whole list. -/
def mapMResult (f : XmlNode → Result T) : List XmlNode → Result (List T)
  | [] => .ok []
  | c :: cs =>
    match f c with
    | .error e => .error e
    | .ok t =>
      match mapMResult f cs with
      | .error e => .error e
      | .ok ts => .ok (t :: ts)

/-- parse_children (src/score.rs:16): filter the direct children by the
child type's tag and map each through from_node, failing on the first
failure. -/
def parse_children (tag : String) (f : XmlNode → Result T)
    (node : XmlNode) : Result (List T) :=
  mapMResult f (childrenWithTag node tag)

/-- parse_option_chd (src/score.rs:23): find the first direct child with
the child type's tag and map it; absence is None. -/
def parse_option_chd (tag : String) (f : XmlNode → Result T)
    (node : XmlNode) : Result (Option T) :=
  match node.children.find? (fun c => c.tag == tag) with
  | none => .ok none
  | some c =>
    match f c with
    | .ok t => .ok (some t)
    | .error e => .error e

/-- Clef (src/score.rs:98): number defaults to 1, sign required, line
optional. -/
structure Clef : Type where
  number : Nat
  sign : Char
  line : Option Nat
  deriving DecidableEq, Repr

def Clef.from_node (node : XmlNode) : Result Clef :=
  match parse_optional_attr parseU8 "u8" node "number" with
  | .error e => .error e
  | .ok num =>
    match parse_chd_text parseChar "char" node "sign" with
    | .error e => .error e
    | .ok sign =>
      match parse_optional_chd_text parseU8 "u8" node "line" with
      | .error e => .error e
      | .ok line => .ok ⟨num.getD 1, sign, line⟩

/-- Attribute (src/score.rs:118): divisions and staves required, clef list
collected. -/
structure Attribute : Type where
  divisions : Nat
  staves : Nat
  clef : List Clef
  deriving DecidableEq, Repr

def Attribute.from_node (node : XmlNode) : Result Attribute :=
  match parse_chd_text parseU8 "u8" node "divisions" with
  | .error e => .error e
  | .ok divisions =>
    match parse_chd_text parseU8 "u8" node "staves" with
    | .error e => .error e
    | .ok staves =>
      match parse_children "clef" Clef.from_node node with
      | .error e => .error e
      | .ok clef => .ok ⟨divisions, staves, clef⟩

/-- Rest (src/score.rs:138): a fieldless marker whose from_node always
succeeds. -/
inductive Rest : Type where
  | mk
  deriving DecidableEq, Repr

def Rest.from_node (_node : XmlNode) : Result Rest :=
  .ok .mk

/-- The step mapping of Pitch::from_node (src/score.rs:163):
(s as u8 + 5 - b'A') % 7 + 1 in u8 arithmetic — the char is truncated to
its low byte and the additions and the subtraction wrap modulo 256. -/
def stepFromChar (c : Char) : Nat :=
  ((c.toNat % 256 + 5 + 256 - 65) % 256) % 7 + 1

/-- Pitch (src/score.rs:150): step mapped to a scale degree, alter
defaulting to 0, octave required. -/
structure Pitch : Type where
  step : Nat
  alter : Nat
  octave : Nat
  deriving DecidableEq, Repr

def Pitch.from_node (node : XmlNode) : Result Pitch :=
  match parse_chd_text parseChar "char" node "step" with
  | .error e => .error e
  | .ok s =>
    match parse_optional_chd_text parseU8 "u8" node "alter" with
    | .error e => .error e
    | .ok alter =>
      match parse_chd_text parseU8 "u8" node "octave" with
      | .error e => .error e
      | .ok octave => .ok ⟨stepFromChar s, alter.getD 0, octave⟩

inductive NoteType : Type where
  | Rest (r : Rest)
  | Pitch (p : Pitch)
  deriving DecidableEq, Repr

structure Note : Type where
  note_type : NoteType
  duration : Nat
  deriving DecidableEq, Repr

/-- The Rest/Pitch mutually-exclusive-group resolution of Note::from_node
(src/score.rs:187): collect each member optionally (a failure of the
member's own from_node propagates), fail with ExclusiveNodeFound when both
are present and with ExclusiveNodeGroupNotFound when neither is. -/
def resolveNoteType (node : XmlNode) : Result NoteType :=
  match parse_option_chd "rest" Rest.from_node node with
  | .error e => .error e
  | .ok restOpt =>
    match parse_option_chd "pitch" Pitch.from_node node with
    | .error e => .error e
    | .ok pitchOpt =>
      let rest := restOpt.map NoteType.Rest
      let pitch := pitchOpt.map NoteType.Pitch
      if rest.isSome ∧ pitch.isSome then
        .error (.ExclusiveNodeFound ["rest", "pitch"] "note")
      else
        match rest.or pitch with
        | some nt => .ok nt
        | none => .error (.ExclusiveNodeGroupNotFound ["rest", "pitch"] "note")

/-- The lenient duration extraction of Note::from_node (src/score.rs:209):
parse_chd_text(node, "duration").unwrap_or(0). -/
def durationOf (node : XmlNode) : Nat :=
  match parse_chd_text parseU8 "u8" node "duration" with
  | .ok d => d
  | .error _ => 0

def Note.from_node (node : XmlNode) : Result Note :=
  match resolveNoteType node with
  | .error e => .error e
  | .ok nt => .ok ⟨nt, durationOf node⟩

structure Measure : Type where
  number : Nat
  attr : Option Attribute
  notes : List Note
  deriving DecidableEq, Repr

def Measure.from_node (node : XmlNode) : Result Measure :=
  match parse_attr parseU16 "u16" node "number" with
  | .error e => .error e
  | .ok number =>
    match parse_option_chd "attributes" Attribute.from_node node with
    | .error e => .error e
    | .ok attr =>
      match parse_children "note" Note.from_node node with
      | .error e => .error e
      | .ok notes => .ok ⟨number, attr, notes⟩

structure Part : Type where
  measures : List Measure
  deriving DecidableEq, Repr

def Part.from_node (node : XmlNode) : Result Part :=
  match parse_children "measure" Measure.from_node node with
  | .error e => .error e
  | .ok measures => .ok ⟨measures⟩

structure Score : Type where
  parts : List Part
  deriving DecidableEq, Repr

def Score.from_node (node : XmlNode) : Result Score :=
  match parse_children "part" Part.from_node node with
  | .error e => .error e
  | .ok parts => .ok ⟨parts⟩

/-- The score media type matched by the manifest resolver
(src/mxl.rs:60). -/
def scoreMediaType : String := "application/vnd.recordare.musicxml+xml"

/-- Whether a rootfile entry's media-type attribute selects it: the score
media type or absent (src/mxl.rs:57). -/
def mediaTypeOk (c : XmlNode) : Bool :=
  match c.attribute "media-type" with
  | some v => v == scoreMediaType
  | none => true

/-- The XML part of Mxl::parse_music_xml_path (src/mxl.rs:45): given the
parsed manifest root element, locate the rootfiles child, select the first
acceptable rootfile child, and read its full-path attribute. -/
def parse_music_xml_path (root : XmlNode) : Result String :=
  match root.children.find? (fun c => c.tag == "rootfiles") with
  | none => .error (.NodeNotFound "rootfiles" root.tag)
  | some rootfiles =>
    match (rootfiles.children.filter (fun c => c.tag == "rootfile")).find?
        mediaTypeOk with
    | none => .error (.NodeNotFound "rootfile" rootfiles.tag)
    | some rf =>
      match rf.attribute "full-path" with
      | some p => .ok p
      | none => .error (.AttrNotFound "full-path" "rootfile")

example : parseU8 "60" = some 60 := by decide
example : parseU8 "-1" = none := by decide
example : parseU8 "256" = none := by decide
example : parseU16 "256" = some 256 := by decide
example : parseChar "E" = some 'E' := by decide
example : stepFromChar 'A' = 6 := by decide
example : stepFromChar 'C' = 1 := by decide
example : stepFromChar 'G' = 5 := by decide
example : stepFromChar 'H' = 6 := by decide
example :
    Note.from_node (.mk "note" [] none
      [.mk "pitch" [] none
        [.mk "step" [] (some "E") [], .mk "octave" [] (some "4") []],
       .mk "duration" [] (some "60") []]) =
    .ok ⟨.Pitch ⟨3, 0, 4⟩, 60⟩ := rfl
example :
    Note.from_node (.mk "note" [] none
      [.mk "rest" [] none [], .mk "duration" [] (some "60") []]) =
    .ok ⟨.Rest .mk, 60⟩ := rfl

/-! ## Shared list lemmas -/

theorem find?_eq_head_filter {α : Type} (p : α → Bool) (l : List α) :
    l.find? p = (l.filter p).head? := by
  induction l with
  | nil => rfl
  | cons a l ih =>
    cases h : p a with
    | true =>
      rw [List.find?_cons_of_pos _ h, List.filter_cons_of_pos h]
      rfl
    | false =>
      rw [List.find?_cons_of_neg _ (by simp [h]), List.filter_cons_of_neg (by simp [h])]
      exact ih

theorem find?_filter_eq_find_and {α : Type} (p q : α → Bool) (l : List α) :
    (l.filter p).find? q = l.find? (fun x => p x && q x) := by
  induction l with
  | nil => rfl
  | cons a l ih =>
    cases hp : p a with
    | true =>
      cases hq : q a with
      | true => simp [List.filter_cons, List.find?_cons, hp, hq]
      | false => simp [List.filter_cons, List.find?_cons, hp, hq, ih]
    | false => simp [List.filter_cons, List.find?_cons, hp, ih]

theorem filter_append_cons_not {α : Type} (p : α → Bool) (l1 l2 : List α)
    (c : α) (h : p c = false) :
    (l1 ++ c :: l2).filter p = (l1 ++ l2).filter p := by
  induction l1 with
  | nil => simp [List.filter_cons, h]
  | cons a l ih => simp [List.filter_cons, ih]

theorem find?_append_cons_not {α : Type} (p : α → Bool) (l1 l2 : List α)
    (c : α) (h : p c = false) :
    (l1 ++ c :: l2).find? p = (l1 ++ l2).find? p := by
  rw [find?_eq_head_filter, find?_eq_head_filter, filter_append_cons_not p l1 l2 c h]

theorem mapMResult_ok_iff {T : Type} (f : XmlNode → Result T)
    (xs : List XmlNode) (l : List T) :
    mapMResult f xs = .ok l ↔ xs.map f = l.map Except.ok := by
  induction xs generalizing l with
  | nil =>
    cases l <;> simp [mapMResult]
  | cons c cs ih =>
    cases l with
    | nil =>
      constructor
      · intro h
        cases hc : f c
        · simp [mapMResult, hc] at h
        · cases hcs : mapMResult f cs <;> simp [mapMResult, hc, hcs] at h
      · intro h
        simp at h
    | cons u us =>
      simp only [List.map_cons, List.cons.injEq]
      constructor
      · intro h
        cases hc : f c with
        | error e => simp [mapMResult, hc] at h
        | ok t =>
          cases hcs : mapMResult f cs with
          | error e => simp [mapMResult, hc, hcs] at h
          | ok ts =>
            simp only [mapMResult, hc, hcs] at h
            injection h with h
            injection h with h1 h2
            subst h1
            subst h2
            exact ⟨rfl, (ih ts).mp hcs⟩
      · rintro ⟨h1, h2⟩
        have h3 := (ih us).mpr h2
        simp [mapMResult, h1, h3]

theorem mapMResult_error {T : Type} (f : XmlNode → Result T)
    (l1 l2 : List XmlNode) (c : XmlNode) (e : Error)
    (hpre : ∀ c1 ∈ l1, ∃ v, f c1 = .ok v) (hc : f c = .error e) :
    mapMResult f (l1 ++ c :: l2) = .error e := by
  induction l1 with
  | nil => simp [mapMResult, hc]
  | cons a l ih =>
    obtain ⟨v, hv⟩ := hpre a (by simp)
    have hrest := ih (fun c1 h1 => hpre c1 (by simp [h1]))
    simp [mapMResult, hv, hrest]

/-! ## Claim theorems -/

/-- Claim C3: optional child-text extraction behaves by direct-child count:
0 matching children give None, exactly 1 gives the parse of its text (absent
text is NodeTextEmpty, a failed parse is NodeTextParseFailed with tag, raw
text and type name), 2 or more give DuplicatedNodesFound; the required
variant turns only the 0-count case into NodeNotFound (child tag, parent
tag). -/
theorem optional_child_text_cases {T : Type} (p : String → Option T)
    (ty : String) (n : XmlNode) (name : String) :
    (childrenWithTag n name = [] →
      parse_optional_chd_text p ty n name = .ok none ∧
      parse_chd_text p ty n name = .error (.NodeNotFound name n.tag))
    ∧ (∀ c, childrenWithTag n name = [c] →
      (c.text = none →
        parse_optional_chd_text p ty n name = .error (.NodeTextEmpty name) ∧
        parse_chd_text p ty n name = .error (.NodeTextEmpty name))
      ∧ (∀ s, c.text = some s → p s = none →
        parse_optional_chd_text p ty n name =
          .error (.NodeTextParseFailed name s ty) ∧
        parse_chd_text p ty n name = .error (.NodeTextParseFailed name s ty))
      ∧ (∀ s v, c.text = some s → p s = some v →
        parse_optional_chd_text p ty n name = .ok (some v) ∧
        parse_chd_text p ty n name = .ok v))
    ∧ (∀ c c2 l, childrenWithTag n name = c :: c2 :: l →
      parse_optional_chd_text p ty n name =
        .error (.DuplicatedNodesFound name n.tag) ∧
      parse_chd_text p ty n name = .error (.DuplicatedNodesFound name n.tag)) := by
  refine ⟨fun h => ?_, fun c h => ⟨fun ht => ?_, fun s ht hp => ?_, fun s v ht hp => ?_⟩,
    fun c c2 l h => ?_⟩
  · constructor <;> simp [parse_optional_chd_text, parse_chd_text, h]
  · constructor <;> simp [parse_optional_chd_text, parse_chd_text, h, ht]
  · constructor <;> simp [parse_optional_chd_text, parse_chd_text, h, ht, hp]
  · constructor <;> simp [parse_optional_chd_text, parse_chd_text, h, ht, hp]
  · constructor <;> simp [parse_optional_chd_text, parse_chd_text, h]

/-- Witness for C3: each of the five cases at a concrete clef-line node. -/
theorem optional_child_text_cases_witness :
    (parse_optional_chd_text parseU8 "u8"
      (.mk "clef" [] none [.mk "line" [] (some "5") []]) "line" = .ok (some 5))
    ∧ (parse_chd_text parseU8 "u8" (.mk "clef" [] none []) "line" =
        .error (.NodeNotFound "line" "clef"))
    ∧ (parse_optional_chd_text parseU8 "u8"
        (.mk "clef" [] none [.mk "line" [] (some "x") []]) "line" =
        .error (.NodeTextParseFailed "line" "x" "u8"))
    ∧ (parse_chd_text parseU8 "u8"
        (.mk "clef" [] none [.mk "line" [] none []]) "line" =
        .error (.NodeTextEmpty "line"))
    ∧ (parse_optional_chd_text parseU8 "u8"
        (.mk "clef" [] none [.mk "line" [] (some "5") [], .mk "line" [] (some "5") []])
        "line" = .error (.DuplicatedNodesFound "line" "clef")) := by
  refine ⟨?_, ?_, ?_, ?_, ?_⟩
  · exact (((optional_child_text_cases parseU8 "u8"
      (.mk "clef" [] none [.mk "line" [] (some "5") []]) "line").2.1
      (.mk "line" [] (some "5") []) rfl).2.2 "5" 5 rfl rfl).1
  · exact ((optional_child_text_cases parseU8 "u8"
      (.mk "clef" [] none []) "line").1 rfl).2
  · exact (((optional_child_text_cases parseU8 "u8"
      (.mk "clef" [] none [.mk "line" [] (some "x") []]) "line").2.1
      (.mk "line" [] (some "x") []) rfl).2.1 "x" rfl rfl).1
  · exact (((optional_child_text_cases parseU8 "u8"
      (.mk "clef" [] none [.mk "line" [] none []]) "line").2.1
      (.mk "line" [] none []) rfl).1 rfl).2
  · exact ((optional_child_text_cases parseU8 "u8"
      (.mk "clef" [] none [.mk "line" [] (some "5") [], .mk "line" [] (some "5") []])
      "line").2.2 (.mk "line" [] (some "5") []) (.mk "line" [] (some "5") []) [] rfl).1

/-- Claim C8: required-attribute extraction returns the parsed value when
the attribute is present and parseable, fails with AttrNotFound (attribute
name, element tag) when absent, and fails with AttrValueParseFailed
(attribute name, tag, raw value, type name) when present but unparseable. -/
theorem required_attr_cases {T : Type} (p : String → Option T) (ty : String)
    (n : XmlNode) (attr : String) :
    (∀ v t, n.attribute attr = some v → p v = some t →
      parse_attr p ty n attr = .ok t)
    ∧ (n.attribute attr = none →
      parse_attr p ty n attr = .error (.AttrNotFound attr n.tag))
    ∧ (∀ v, n.attribute attr = some v → p v = none →
      parse_attr p ty n attr = .error (.AttrValueParseFailed attr n.tag v ty)) := by
  refine ⟨fun v t hv hp => ?_, fun hv => ?_, fun v hv hp => ?_⟩
  · simp [parse_attr, parse_optional_attr, hv, hp]
  · simp [parse_attr, parse_optional_attr, hv]
  · simp [parse_attr, parse_optional_attr, hv, hp]

/-- Witness for C8: the spec's slur scenarios, plus an unparseable value. -/
theorem required_attr_cases_witness :
    (parse_attr parseString "alloc::string::String"
      (.mk "slur" [("type", "start")] none []) "type" = .ok "start")
    ∧ (parse_attr parseString "alloc::string::String"
        (.mk "slur" [] none []) "type" = .error (.AttrNotFound "type" "slur"))
    ∧ (parse_attr parseU8 "u8" (.mk "slur" [("type", "start")] none []) "type" =
        .error (.AttrValueParseFailed "type" "slur" "start" "u8")) := by
  refine ⟨?_, ?_, ?_⟩
  · exact (required_attr_cases parseString "alloc::string::String"
      (.mk "slur" [("type", "start")] none []) "type").1 "start" "start" rfl rfl
  · exact (required_attr_cases parseString "alloc::string::String"
      (.mk "slur" [] none []) "type").2.1 rfl
  · exact (required_attr_cases parseU8 "u8"
      (.mk "slur" [("type", "start")] none []) "type").2.2 "start" rfl rfl

/-- Claim C7: collect-many preserves document order and fails fast: the
collection succeeds with l exactly when mapping the tag-filtered direct
children pointwise gives l in document order, and the first failing child
aborts the whole collection with its error. -/
theorem parse_children_spec {T : Type} (f : XmlNode → Result T) (tag : String)
    (n : XmlNode) :
    (∀ l, parse_children tag f n = .ok l ↔
      (childrenWithTag n tag).map f = l.map Except.ok)
    ∧ (∀ l1 c l2 e, childrenWithTag n tag = l1 ++ c :: l2 →
      (∀ c1 ∈ l1, ∃ v, f c1 = .ok v) → f c = .error e →
      parse_children tag f n = .error e) := by
  constructor
  · intro l
    exact mapMResult_ok_iff f (childrenWithTag n tag) l
  · intro l1 c l2 e h hpre hc
    show mapMResult f (childrenWithTag n tag) = .error e
    rw [h]
    exact mapMResult_error f l1 l2 c e hpre hc

/-- Witness for C7: a measure whose two note children decode in document
order (an unrecognized child between them is skipped), and one whose second
note child fails, aborting the collection with that error. -/
theorem parse_children_spec_witness :
    (parse_children "note" Note.from_node (.mk "measure" [] none
      [.mk "note" [] none [.mk "rest" [] none []],
       .mk "backup" [] none [],
       .mk "note" [] none
        [.mk "pitch" [] none
          [.mk "step" [] (some "C") [], .mk "octave" [] (some "4") []]]]) =
      .ok [⟨.Rest .mk, 0⟩, ⟨.Pitch ⟨1, 0, 4⟩, 0⟩])
    ∧ (parse_children "note" Note.from_node (.mk "measure" [] none
      [.mk "note" [] none [.mk "rest" [] none []],
       .mk "note" [] none []]) =
      .error (.ExclusiveNodeGroupNotFound ["rest", "pitch"] "note")) := by
  constructor
  · exact ((parse_children_spec Note.from_node "note"
      (.mk "measure" [] none
        [.mk "note" [] none [.mk "rest" [] none []],
         .mk "backup" [] none [],
         .mk "note" [] none
          [.mk "pitch" [] none
            [.mk "step" [] (some "C") [], .mk "octave" [] (some "4") []]]])).1
      [⟨.Rest .mk, 0⟩, ⟨.Pitch ⟨1, 0, 4⟩, 0⟩]).mpr rfl
  · refine (parse_children_spec Note.from_node "note"
      (.mk "measure" [] none
        [.mk "note" [] none [.mk "rest" [] none []],
         .mk "note" [] none []])).2
      [.mk "note" [] none [.mk "rest" [] none []]] (.mk "note" [] none []) []
      (.ExclusiveNodeGroupNotFound ["rest", "pitch"] "note") rfl ?_ rfl
    intro c1 h1
    have : c1 = .mk "note" [] none [.mk "rest" [] none []] := by
      simpa using h1
    exact ⟨⟨.Rest .mk, 0⟩, by rw [this]; rfl⟩

/-- Claim C4: the duration field is deliberately lenient: whenever the
Rest/Pitch group of a note resolves, any failure of the duration child-text
extraction (absent child, malformed or empty text, duplicated children —
all covered by the error hypothesis) yields duration 0 instead of a decode
error. -/
theorem note_duration_lenient (n : XmlNode) (nt : NoteType) (e : Error)
    (h : resolveNoteType n = .ok nt)
    (hd : parse_chd_text parseU8 "u8" n "duration" = .error e) :
    Note.from_node n = .ok ⟨nt, 0⟩ := by
  simp [Note.from_node, h, durationOf, hd]

/-- Witness for C4: a rest note with no duration child and one with a
malformed duration text both decode with duration 0. -/
theorem note_duration_lenient_witness :
    (Note.from_node (.mk "note" [] none [.mk "rest" [] none []]) =
      .ok ⟨.Rest .mk, 0⟩)
    ∧ (Note.from_node (.mk "note" [] none
        [.mk "rest" [] none [], .mk "duration" [] (some "abc") []]) =
      .ok ⟨.Rest .mk, 0⟩) :=
  ⟨note_duration_lenient (.mk "note" [] none [.mk "rest" [] none []])
      (.Rest .mk) (.NodeNotFound "duration" "note") rfl rfl,
   note_duration_lenient (.mk "note" [] none
        [.mk "rest" [] none [], .mk "duration" [] (some "abc") []])
      (.Rest .mk) (.NodeTextParseFailed "duration" "abc" "u8") rfl rfl⟩

/-- Counterexample to C1 as stated: the step text H is a single character
other than A–G, yet Pitch::from_node succeeds (char parsing accepts any
single character and the byte formula maps H to 6) instead of returning an
error. -/
theorem pitch_step_counterexample :
    Pitch.from_node (.mk "pitch" [] none
      [.mk "step" [] (some "H") [], .mk "octave" [] (some "4") []]) =
    .ok ⟨6, 0, 4⟩ := rfl

/-- Claim C1 (amended): when step, alter and octave extraction succeed,
the step field is the byte formula (letter + 5 - 65) mod 7 + 1 applied to
the step character, which maps A,B,C,D,E,F,G to 6,7,1,2,3,4,5; parsing the
step text fails exactly when it is not a single character — any single
character, A–G or not, is accepted and mapped by the same wrapping
formula. -/
theorem pitch_step_mapping (n : XmlNode) (c : Char) (alter : Option Nat)
    (oct : Nat)
    (hs : parse_chd_text parseChar "char" n "step" = .ok c)
    (ha : parse_optional_chd_text parseU8 "u8" n "alter" = .ok alter)
    (ho : parse_chd_text parseU8 "u8" n "octave" = .ok oct) :
    Pitch.from_node n = .ok ⟨stepFromChar c, alter.getD 0, oct⟩
    ∧ [stepFromChar 'A', stepFromChar 'B', stepFromChar 'C', stepFromChar 'D',
       stepFromChar 'E', stepFromChar 'F', stepFromChar 'G'] =
      [6, 7, 1, 2, 3, 4, 5]
    ∧ (∀ s : String, s.data.length ≠ 1 → parseChar s = none) := by
  refine ⟨by simp [Pitch.from_node, hs, ha, ho], by decide, fun s hlen => ?_⟩
  unfold parseChar
  cases hd : s.data with
  | nil => rfl
  | cons c1 t =>
    cases t with
    | nil => exact absurd (by rw [hd]; rfl) hlen
    | cons c2 t2 => rfl

/-- Witness for C1 (amended): the spec's own scenario, step E and octave 4
decode to step 3. -/
theorem pitch_step_mapping_witness :
    Pitch.from_node (.mk "pitch" [] none
      [.mk "step" [] (some "E") [], .mk "octave" [] (some "4") []]) =
    .ok ⟨3, 0, 4⟩ :=
  (pitch_step_mapping (.mk "pitch" [] none
      [.mk "step" [] (some "E") [], .mk "octave" [] (some "4") []])
    'E' none 4 rfl rfl rfl).1

/-- Counterexample to C2 as stated: a note with both a rest child and a
pitch child does not always fail with ExclusiveNodeFound — when the pitch
child itself is malformed its own parse error propagates first. -/
theorem note_exclusive_counterexample :
    Note.from_node (.mk "note" [] none
      [.mk "rest" [] none [], .mk "pitch" [] none []]) =
    .error (.NodeNotFound "step" "pitch") := rfl

/-- Claim C2 (amended): for a note element, if both a rest and a pitch
child are present and the first pitch child itself parses, the result is
the ExclusiveNodeFound error; if neither is present, the
ExclusiveNodeGroupNotFound error; a rest-only note succeeds with the Rest
variant; a pitch-only note succeeds with the Pitch variant when the first
pitch child parses; a first pitch child whose own parse fails propagates
that error instead. -/
theorem note_exclusive_cases (n : XmlNode) :
    (∀ cr cp p, n.children.find? (fun c => c.tag == "rest") = some cr →
      n.children.find? (fun c => c.tag == "pitch") = some cp →
      Pitch.from_node cp = .ok p →
      Note.from_node n = .error (.ExclusiveNodeFound ["rest", "pitch"] "note"))
    ∧ (n.children.find? (fun c => c.tag == "rest") = none →
      n.children.find? (fun c => c.tag == "pitch") = none →
      Note.from_node n =
        .error (.ExclusiveNodeGroupNotFound ["rest", "pitch"] "note"))
    ∧ (∀ cr, n.children.find? (fun c => c.tag == "rest") = some cr →
      n.children.find? (fun c => c.tag == "pitch") = none →
      Note.from_node n = .ok ⟨.Rest .mk, durationOf n⟩)
    ∧ (∀ cp p, n.children.find? (fun c => c.tag == "rest") = none →
      n.children.find? (fun c => c.tag == "pitch") = some cp →
      Pitch.from_node cp = .ok p →
      Note.from_node n = .ok ⟨.Pitch p, durationOf n⟩)
    ∧ (∀ cp e, n.children.find? (fun c => c.tag == "pitch") = some cp →
      Pitch.from_node cp = .error e →
      Note.from_node n = .error e) := by
  refine ⟨fun cr cp p hr hp hpp => ?_, fun hr hp => ?_, fun cr hr hp => ?_,
    fun cp p hr hp hpp => ?_, fun cp e hp hpe => ?_⟩
  · simp [Note.from_node, resolveNoteType, Rest.from_node,
      parse_option_chd, hr, hp, hpp]
  · simp [Note.from_node, resolveNoteType, Rest.from_node,
      parse_option_chd, hr, hp]
  · simp [Note.from_node, resolveNoteType, Rest.from_node,
      parse_option_chd, hr, hp]
  · simp [Note.from_node, resolveNoteType, Rest.from_node,
      parse_option_chd, hr, hp, hpp]
  · cases hfr : n.children.find? (fun c => c.tag == "rest") <;>
      simp [Note.from_node, resolveNoteType, Rest.from_node,
        parse_option_chd, hfr, hp, hpe]

/-- Witness for C2 (amended): a note holding a rest and a well-formed
pitch fails with ExclusiveNodeFound. -/
theorem note_exclusive_cases_witness :
    Note.from_node (.mk "note" [] none
      [.mk "rest" [] none [],
       .mk "pitch" [] none
        [.mk "step" [] (some "C") [], .mk "octave" [] (some "4") []]]) =
    .error (.ExclusiveNodeFound ["rest", "pitch"] "note") :=
  (note_exclusive_cases (.mk "note" [] none
      [.mk "rest" [] none [],
       .mk "pitch" [] none
        [.mk "step" [] (some "C") [], .mk "octave" [] (some "4") []]])).1
    (.mk "rest" [] none [])
    (.mk "pitch" [] none
      [.mk "step" [] (some "C") [], .mk "octave" [] (some "4") []])
    ⟨1, 0, 4⟩ rfl rfl rfl

/-- Claim C6: collect-optional-one takes the first matching child and does
not reject duplicates: a measure with two or more attributes children
decodes using only the first one (the later duplicates do not influence
the result and no DuplicatedNodesFound is raised). -/
theorem measure_first_attributes_wins (n a b : XmlNode) (l : List XmlNode)
    (num : Nat) (notes : List Note)
    (h : childrenWithTag n "attributes" = a :: b :: l)
    (hn : parse_attr parseU16 "u16" n "number" = .ok num)
    (hnotes : parse_children "note" Note.from_node n = .ok notes) :
    Measure.from_node n =
      (Attribute.from_node a).map (fun at1 => ⟨num, some at1, notes⟩) := by
  have hfind : n.children.find? (fun c => c.tag == "attributes") = some a := by
    rw [find?_eq_head_filter]
    have h2 : n.children.filter (fun c => c.tag == "attributes") = a :: b :: l := h
    rw [h2]
    rfl
  cases hA : Attribute.from_node a <;>
    simp [Measure.from_node, hn, parse_option_chd, hfind, hA, hnotes,
      Except.map]

/-- Witness for C6: a measure with two attributes children succeeds and
keeps the first one's record. -/
theorem measure_first_attributes_wins_witness :
    Measure.from_node (.mk "measure" [("number", "1")] none
      [.mk "attributes" [] none
        [.mk "divisions" [] (some "1") [], .mk "staves" [] (some "2") []],
       .mk "attributes" [] none
        [.mk "divisions" [] (some "3") [], .mk "staves" [] (some "4") []]]) =
    .ok ⟨1, some ⟨1, 2, []⟩, []⟩ :=
  (measure_first_attributes_wins (.mk "measure" [("number", "1")] none
      [.mk "attributes" [] none
        [.mk "divisions" [] (some "1") [], .mk "staves" [] (some "2") []],
       .mk "attributes" [] none
        [.mk "divisions" [] (some "3") [], .mk "staves" [] (some "4") []]])
    (.mk "attributes" [] none
      [.mk "divisions" [] (some "1") [], .mk "staves" [] (some "2") []])
    (.mk "attributes" [] none
      [.mk "divisions" [] (some "3") [], .mk "staves" [] (some "4") []])
    [] 1 [] rfl rfl rfl).trans rfl

/-- u8 parsing rejects any string whose first character is a minus sign:
the unsigned FromStr model accepts only an optional plus sign followed by
digits. -/
theorem parseU8_minus (s : String) (t : List Char) (h : s.data = '-' :: t) :
    parseU8 s = none := by
  unfold parseU8 parseUnsigned
  rw [h]
  simp +decide [parseDigits]

/-- Claim C9: numeric fields are parsed as narrow unsigned integers, so a
negative alter text like -1 cannot parse as u8: a pitch element with a
single alter child whose text begins with a minus sign fails with
NodeTextParseFailed (once the step extraction itself succeeded, alter is
the extraction reached next). -/
theorem pitch_alter_negative (n c : XmlNode) (s : String) (t : List Char)
    (st : Char)
    (h1 : childrenWithTag n "alter" = [c])
    (h2 : c.text = some s)
    (h3 : s.data = '-' :: t)
    (h4 : parse_chd_text parseChar "char" n "step" = .ok st) :
    Pitch.from_node n = .error (.NodeTextParseFailed "alter" s "u8") := by
  have hu : parseU8 s = none := parseU8_minus s t h3
  simp [Pitch.from_node, h4, parse_optional_chd_text, h1, h2, hu]

/-- Witness for C9: alter text -1 yields NodeTextParseFailed naming alter,
the raw text and u8. -/
theorem pitch_alter_negative_witness :
    Pitch.from_node (.mk "pitch" [] none
      [.mk "step" [] (some "A") [], .mk "alter" [] (some "-1") [],
       .mk "octave" [] (some "4") []]) =
    .error (.NodeTextParseFailed "alter" "-1" "u8") :=
  pitch_alter_negative (.mk "pitch" [] none
      [.mk "step" [] (some "A") [], .mk "alter" [] (some "-1") [],
       .mk "octave" [] (some "4") []])
    (.mk "alter" [] (some "-1") []) "-1" ['1'] 'A' rfl rfl rfl rfl

/-- Claim C5: manifest resolution finds the rootfiles child (absence is
NodeNotFound naming rootfiles and the root tag), selects the first
rootfile child in document order whose media-type attribute is the score
media type or absent (no such child, including the zero-rootfile case, is
NodeNotFound naming rootfile), and returns that entry's full-path
attribute (absence is AttrNotFound naming full-path). -/
theorem music_xml_path_spec (root : XmlNode) :
    (root.children.find? (fun c => c.tag == "rootfiles") = none →
      parse_music_xml_path root = .error (.NodeNotFound "rootfiles" root.tag))
    ∧ (∀ rfs, root.children.find? (fun c => c.tag == "rootfiles") = some rfs →
      (rfs.children.find?
          (fun c => c.tag == "rootfile" && mediaTypeOk c) = none →
        parse_music_xml_path root = .error (.NodeNotFound "rootfile" rfs.tag))
      ∧ (∀ rf, rfs.children.find?
          (fun c => c.tag == "rootfile" && mediaTypeOk c) = some rf →
        (∀ pth, rf.attribute "full-path" = some pth →
          parse_music_xml_path root = .ok pth)
        ∧ (rf.attribute "full-path" = none →
          parse_music_xml_path root =
            .error (.AttrNotFound "full-path" "rootfile")))) := by
  refine ⟨fun h => ?_, fun rfs h => ⟨fun hsel => ?_, fun rf hsel =>
    ⟨fun pth hpath => ?_, fun hpath => ?_⟩⟩⟩
  · simp only [parse_music_xml_path, h]
  · simp only [parse_music_xml_path, h, find?_filter_eq_find_and, hsel]
  · simp only [parse_music_xml_path, h, find?_filter_eq_find_and, hsel, hpath]
  · simp only [parse_music_xml_path, h, find?_filter_eq_find_and, hsel, hpath]

/-- Witness for C5: a manifest whose first rootfile has a non-score
media-type and whose second lacks the attribute selects the second and
returns its full-path; a manifest with an empty rootfiles element fails
with NodeNotFound naming rootfile. -/
theorem music_xml_path_spec_witness :
    (parse_music_xml_path (.mk "container" [] none
      [.mk "rootfiles" [] none
        [.mk "rootfile" [("media-type", "text/plain"),
            ("full-path", "other.txt")] none [],
         .mk "rootfile" [("full-path", "score.xml")] none []]]) =
      .ok "score.xml")
    ∧ (parse_music_xml_path (.mk "container" [] none
        [.mk "rootfiles" [] none []]) =
      .error (.NodeNotFound "rootfile" "rootfiles")) := by
  constructor
  · exact (((music_xml_path_spec (.mk "container" [] none
      [.mk "rootfiles" [] none
        [.mk "rootfile" [("media-type", "text/plain"),
            ("full-path", "other.txt")] none [],
         .mk "rootfile" [("full-path", "score.xml")] none []]])).2
      (.mk "rootfiles" [] none
        [.mk "rootfile" [("media-type", "text/plain"),
            ("full-path", "other.txt")] none [],
         .mk "rootfile" [("full-path", "score.xml")] none []]) rfl).2
      (.mk "rootfile" [("full-path", "score.xml")] none []) rfl).1
      "score.xml" rfl
  · exact (((music_xml_path_spec (.mk "container" [] none
      [.mk "rootfiles" [] none []])).2
      (.mk "rootfiles" [] none []) rfl).1 rfl)

/-! ## Insertion of an unrecognized child (claim C10) -/

theorem childrenWithTag_ins (tg : String) (ats : List (String × String))
    (tx : Option String) (l1 l2 : List XmlNode) (c : XmlNode) (t : String)
    (h : ¬ c.tag = t) :
    childrenWithTag (.mk tg ats tx (l1 ++ c :: l2)) t =
    childrenWithTag (.mk tg ats tx (l1 ++ l2)) t :=
  filter_append_cons_not _ l1 l2 c (by simp [h])

theorem findChild_ins (tg : String) (ats : List (String × String))
    (tx : Option String) (l1 l2 : List XmlNode) (c : XmlNode) (t : String)
    (h : ¬ c.tag = t) :
    (XmlNode.mk tg ats tx (l1 ++ c :: l2)).children.find?
      (fun x => x.tag == t) =
    (XmlNode.mk tg ats tx (l1 ++ l2)).children.find? (fun x => x.tag == t) :=
  find?_append_cons_not _ l1 l2 c (by simp [h])

theorem parse_optional_chd_text_ins {T : Type} (p : String → Option T)
    (ty tg : String) (ats : List (String × String)) (tx : Option String)
    (l1 l2 : List XmlNode) (c : XmlNode) (t : String) (h : ¬ c.tag = t) :
    parse_optional_chd_text p ty (.mk tg ats tx (l1 ++ c :: l2)) t =
    parse_optional_chd_text p ty (.mk tg ats tx (l1 ++ l2)) t := by
  unfold parse_optional_chd_text
  rw [childrenWithTag_ins tg ats tx l1 l2 c t h]
  rfl

theorem parse_chd_text_ins {T : Type} (p : String → Option T)
    (ty tg : String) (ats : List (String × String)) (tx : Option String)
    (l1 l2 : List XmlNode) (c : XmlNode) (t : String) (h : ¬ c.tag = t) :
    parse_chd_text p ty (.mk tg ats tx (l1 ++ c :: l2)) t =
    parse_chd_text p ty (.mk tg ats tx (l1 ++ l2)) t := by
  unfold parse_chd_text
  rw [parse_optional_chd_text_ins p ty tg ats tx l1 l2 c t h]
  rfl

theorem parse_children_ins {T : Type} (f : XmlNode → Result T)
    (tg : String) (ats : List (String × String)) (tx : Option String)
    (l1 l2 : List XmlNode) (c : XmlNode) (t : String) (h : ¬ c.tag = t) :
    parse_children t f (.mk tg ats tx (l1 ++ c :: l2)) =
    parse_children t f (.mk tg ats tx (l1 ++ l2)) := by
  unfold parse_children
  rw [childrenWithTag_ins tg ats tx l1 l2 c t h]

theorem parse_option_chd_ins {T : Type} (f : XmlNode → Result T)
    (tg : String) (ats : List (String × String)) (tx : Option String)
    (l1 l2 : List XmlNode) (c : XmlNode) (t : String) (h : ¬ c.tag = t) :
    parse_option_chd t f (.mk tg ats tx (l1 ++ c :: l2)) =
    parse_option_chd t f (.mk tg ats tx (l1 ++ l2)) := by
  unfold parse_option_chd
  rw [findChild_ins tg ats tx l1 l2 c t h]

/-- Claim C10: every mapper silently ignores direct children whose tag is
not one it looks for: inserting a child with an unrecognized tag anywhere
among an element's children changes neither success nor failure nor the
decoded record, for each of the seven record mappers. -/
theorem from_node_ignores_unknown (tg : String)
    (ats : List (String × String)) (tx : Option String)
    (l1 l2 : List XmlNode) (c : XmlNode) :
    (¬ c.tag = "part" →
      Score.from_node (.mk tg ats tx (l1 ++ c :: l2)) =
      Score.from_node (.mk tg ats tx (l1 ++ l2)))
    ∧ (¬ c.tag = "measure" →
      Part.from_node (.mk tg ats tx (l1 ++ c :: l2)) =
      Part.from_node (.mk tg ats tx (l1 ++ l2)))
    ∧ (¬ (c.tag = "attributes" ∨ c.tag = "note") →
      Measure.from_node (.mk tg ats tx (l1 ++ c :: l2)) =
      Measure.from_node (.mk tg ats tx (l1 ++ l2)))
    ∧ (¬ (c.tag = "rest" ∨ c.tag = "pitch" ∨ c.tag = "duration") →
      Note.from_node (.mk tg ats tx (l1 ++ c :: l2)) =
      Note.from_node (.mk tg ats tx (l1 ++ l2)))
    ∧ (¬ (c.tag = "step" ∨ c.tag = "alter" ∨ c.tag = "octave") →
      Pitch.from_node (.mk tg ats tx (l1 ++ c :: l2)) =
      Pitch.from_node (.mk tg ats tx (l1 ++ l2)))
    ∧ (¬ (c.tag = "divisions" ∨ c.tag = "staves" ∨ c.tag = "clef") →
      Attribute.from_node (.mk tg ats tx (l1 ++ c :: l2)) =
      Attribute.from_node (.mk tg ats tx (l1 ++ l2)))
    ∧ (¬ (c.tag = "sign" ∨ c.tag = "line") →
      Clef.from_node (.mk tg ats tx (l1 ++ c :: l2)) =
      Clef.from_node (.mk tg ats tx (l1 ++ l2))) := by
  refine ⟨fun h => ?_, fun h => ?_, fun h => ?_, fun h => ?_, fun h => ?_,
    fun h => ?_, fun h => ?_⟩
  · unfold Score.from_node
    rw [parse_children_ins Part.from_node tg ats tx l1 l2 c "part" h]
  · unfold Part.from_node
    rw [parse_children_ins Measure.from_node tg ats tx l1 l2 c "measure" h]
  · push_neg at h
    unfold Measure.from_node
    rw [parse_option_chd_ins Attribute.from_node tg ats tx l1 l2 c
        "attributes" h.1,
      parse_children_ins Note.from_node tg ats tx l1 l2 c "note" h.2]
    rfl
  · push_neg at h
    unfold Note.from_node resolveNoteType durationOf
    rw [parse_option_chd_ins Rest.from_node tg ats tx l1 l2 c "rest" h.1,
      parse_option_chd_ins Pitch.from_node tg ats tx l1 l2 c "pitch" h.2.1,
      parse_chd_text_ins parseU8 "u8" tg ats tx l1 l2 c "duration" h.2.2]
  · push_neg at h
    unfold Pitch.from_node
    rw [parse_chd_text_ins parseChar "char" tg ats tx l1 l2 c "step" h.1,
      parse_optional_chd_text_ins parseU8 "u8" tg ats tx l1 l2 c "alter"
        h.2.1,
      parse_chd_text_ins parseU8 "u8" tg ats tx l1 l2 c "octave" h.2.2]
  · push_neg at h
    unfold Attribute.from_node
    rw [parse_chd_text_ins parseU8 "u8" tg ats tx l1 l2 c "divisions" h.1,
      parse_chd_text_ins parseU8 "u8" tg ats tx l1 l2 c "staves" h.2.1,
      parse_children_ins Clef.from_node tg ats tx l1 l2 c "clef" h.2.2]
  · push_neg at h
    unfold Clef.from_node
    rw [parse_chd_text_ins parseChar "char" tg ats tx l1 l2 c "sign" h.1,
      parse_optional_chd_text_ins parseU8 "u8" tg ats tx l1 l2 c "line" h.2]
    rfl

/-- Witness for C10: inserting a backup child into a measure leaves the
decoded record unchanged. -/
theorem from_node_ignores_unknown_witness :
    Measure.from_node (.mk "measure" [("number", "1")] none
      [.mk "backup" [] none [],
       .mk "note" [] none [.mk "rest" [] none []]]) =
    Measure.from_node (.mk "measure" [("number", "1")] none
      [.mk "note" [] none [.mk "rest" [] none []]]) :=
  (from_node_ignores_unknown "measure" [("number", "1")] none []
    [.mk "note" [] none [.mk "rest" [] none []]]
    (.mk "backup" [] none [])).2.2.1 (by simp [XmlNode.tag])

end MusicXml
